import Mathlib

/-!
Verification of the IP/MAC device-registration tool (`src/app.py`,
`src/database.py`).  Strings are embedded as `List Char`, the device store
as an explicit list of rows, and each operation of the application as a
pure function on that state.
-/

/-! ## Python string primitives used by the source -/

/-- ASCII decimal digit, as accepted by CPython's octet parser
(`octet_str.isascii() and octet_str.isdigit()`). -/
def pyIsDigit (c : Char) : Bool := '0' ≤ c && c ≤ '9'

/-- Hexadecimal digit, CPython's `_HEX_DIGITS` set. -/
def pyIsHexDigit (c : Char) : Bool :=
  pyIsDigit c || ('a' ≤ c && c ≤ 'f') || ('A' ≤ c && c ≤ 'F')

/-- ASCII whitespace recognised by Python's `str.strip()`. -/
def pyIsSpace (c : Char) : Bool :=
  c = ' ' || c = '\t' || c = '\n' || c = '\r' || c.toNat = 11 || c.toNat = 12

/-- Python's `str.strip()`: drop whitespace from both ends. -/
def pyStrip (s : List Char) : List Char :=
  ((s.dropWhile pyIsSpace).reverse.dropWhile pyIsSpace).reverse

/-- Python's `str.lower()`, modelled on its ASCII fragment (every string the
application lower-cases here is compared only through ASCII letters). -/
def pyLowerChar (c : Char) : Char := c.toLower

/-- Lower-case an embedded string. -/
def pyLower (s : List Char) : List Char := s.map pyLowerChar

/-- Helper of `splitOnChar`: accumulate the current field (reversed). -/
def splitOnAux (sep : Char) : List Char → List Char → List (List Char)
  | [], acc => [acc.reverse]
  | c :: cs, acc =>
    if c = sep then acc.reverse :: splitOnAux sep cs []
    else splitOnAux sep cs (c :: acc)

/-- Python's `str.split(sep)` for a one-character separator; always returns
at least one (possibly empty) field. -/
def splitOnChar (sep : Char) (s : List Char) : List (List Char) :=
  splitOnAux sep s []

/-- Whether the needle starts the haystack. -/
def leadsWith : List Char → List Char → Bool
  | [], _ => true
  | _ :: _, [] => false
  | a :: as, b :: bs => a == b && leadsWith as bs

/-- Python's `needle in haystack` substring test. -/
def occursIn (n : List Char) : List Char → Bool
  | [] => n.isEmpty
  | c :: t => leadsWith n (c :: t) || occursIn n t

/-- Python's `str.partition(sep)` restricted to what the source needs:
`none` when the separator is absent, otherwise the pieces around the first
occurrence. -/
def breakAt (sep : Char) : List Char → Option (List Char × List Char)
  | [] => none
  | c :: t =>
    if c = sep then some ([], t)
    else (breakAt sep t).map (fun p => (c :: p.1, p.2))

/-- Numeric value of a decimal digit character. -/
def digitVal (c : Char) : Nat := c.toNat - 48

/-- Numeric value of a hexadecimal digit character. -/
def hexVal (c : Char) : Nat :=
  if pyIsDigit c then c.toNat - 48
  else if 'a' ≤ c && c ≤ 'f' then c.toNat - 87
  else c.toNat - 55

/-- Value of a string of decimal digits. -/
def decValue (s : List Char) : Nat := s.foldl (fun a c => 10 * a + digitVal c) 0

/-- Value of a string of hexadecimal digits. -/
def hexValue (s : List Char) : Nat := s.foldl (fun a c => 16 * a + hexVal c) 0

/-- Collect a list of optional values, failing if any is `none`. -/
def seqOpts : List (Option Nat) → Option (List Nat)
  | [] => some []
  | none :: _ => none
  | some v :: t => (seqOpts t).map (fun l => v :: l)

/-! ## Validator (`is_valid_ip`, `is_valid_mac`)

`is_valid_ip` in `src/app.py` calls the standard library's
`ipaddress.ip_address` and reports whether it raised.  The library call is
embedded below following CPython's `ipaddress` module: `IPv4Address` /
`IPv6Address` construction over a string argument. -/

/-- CPython `_BaseV4._parse_octet`: ASCII decimal digits only, at most three
characters, no leading zeros, value at most 255. -/
def parse_octet (s : List Char) : Option Nat :=
  if s = [] then none
  else if !(s.all pyIsDigit) then none
  else if 3 < s.length then none
  else if s ≠ ['0'] ∧ s.headD ' ' = '0' then none
  else if 255 < decValue s then none
  else some (decValue s)

/-- CPython `_BaseV4._ip_int_from_string`: exactly four octets split on dots. -/
def ip_int_from_string_v4 (s : List Char) : Option Nat :=
  if s = [] then none
  else
    match splitOnChar '.' s with
    | [o1, o2, o3, o4] =>
      match parse_octet o1, parse_octet o2, parse_octet o3, parse_octet o4 with
      | some a, some b, some c, some d =>
        some (((a * 256 + b) * 256 + c) * 256 + d)
      | _, _, _, _ => none
    | _ => none

/-- CPython `IPv4Address.__init__` on a string: reject `/`, then parse. -/
def parse_ipv4_address (s : List Char) : Option Nat :=
  if s.any (fun c => c = '/') then none else ip_int_from_string_v4 s

/-- CPython `_BaseV6._parse_hextet`: hex digits only, at most four characters,
nonempty (the empty string fails `int('', 16)`). -/
def parse_hextet (s : List Char) : Option Nat :=
  if !(s.all pyIsHexDigit) then none
  else if 4 < s.length then none
  else if s = [] then none
  else some (hexValue s)

/-- CPython IPv6 parsing, step: when the last colon-separated part contains a
dot, parse it as IPv4 and replace it by its two hextets (rendered in hex, as
`'%x' %` does). -/
def expandV4Suffix (parts : List (List Char)) : Option (List (List Char)) :=
  if (parts.getLastD []).any (fun c => c = '.') then
    match parse_ipv4_address (parts.getLastD []) with
    | none => none
    | some v =>
      some (parts.dropLast ++ [Nat.toDigits 16 (v / 65536), Nat.toDigits 16 (v % 65536)])
  else some parts

/-- CPython IPv6 parsing, final step: parse the first `hi` and last `lo`
parts as hextets and assemble the 128-bit value around `skipped` zero groups. -/
def v6Assemble (parts : List (List Char)) (hi lo skipped : Nat) : Option Nat :=
  match seqOpts ((parts.take hi).map parse_hextet),
        seqOpts ((parts.drop (parts.length - lo)).map parse_hextet) with
  | some hs, some ls =>
    some ((hs.foldl (fun a v => a * 65536 + v) 0) * 65536 ^ (skipped + lo)
          + ls.foldl (fun a v => a * 65536 + v) 0)
  | _, _ => none

/-- CPython `_BaseV6._ip_int_from_string` after the IPv4-suffix expansion:
locate the at-most-one `::`, check the endpoint rules, and assemble. -/
def v6FromParts (parts : List (List Char)) : Option Nat :=
  if 9 < parts.length then none
  else
    let inner := (parts.drop 1).dropLast
    if 1 < (inner.filter (fun p => p.isEmpty)).length then none
    else
      match inner.findIdx? (fun p => p.isEmpty) with
      | some j =>
        let i := j + 1
        let hi1 := if (parts.headD []).isEmpty then i - 1 else i
        if (parts.headD []).isEmpty ∧ hi1 ≠ 0 then none
        else
          let lo0 := parts.length - i - 1
          let lo1 := if (parts.getLastD []).isEmpty then lo0 - 1 else lo0
          if (parts.getLastD []).isEmpty ∧ lo1 ≠ 0 then none
          else if 8 ≤ hi1 + lo1 then none
          else v6Assemble parts hi1 lo1 (8 - (hi1 + lo1))
      | none =>
        if parts.length ≠ 8 then none
        else if (parts.headD []).isEmpty then none
        else if (parts.getLastD []).isEmpty then none
        else v6Assemble parts 8 0 0

/-- CPython `_BaseV6._ip_int_from_string`: nonempty, at least three
colon-separated parts, IPv4 suffix expansion, then `v6FromParts`. -/
def ip_int_from_string_v6 (s : List Char) : Option Nat :=
  if s = [] then none
  else
    let parts0 := splitOnChar ':' s
    if parts0.length < 3 then none
    else
      match expandV4Suffix parts0 with
      | none => none
      | some parts => v6FromParts parts

/-- CPython `IPv6Address.__init__` on a string: reject `/`, split off a
`%scope` suffix (which must be nonempty and `%`-free), parse the rest. -/
def parse_ipv6_address (s : List Char) : Option Nat :=
  if s.any (fun c => c = '/') then none
  else
    match breakAt '%' s with
    | none => ip_int_from_string_v6 s
    | some (addr, scope) =>
      if scope = [] then none
      else if scope.any (fun c => c = '%') then none
      else ip_int_from_string_v6 addr

/-- `is_valid_ip` from `src/app.py`: `ipaddress.ip_address(ip)` succeeds, the
factory trying `IPv4Address` first and `IPv6Address` second. -/
def is_valid_ip (ip : List Char) : Bool :=
  (parse_ipv4_address ip).isSome || (parse_ipv6_address ip).isSome

/-- `is_valid_mac` from `src/app.py`:
`len(mac.split(':')) == 6 and all(len(b) == 2 for b in mac.split(':'))`. -/
def is_valid_mac (mac : List Char) : Bool :=
  (splitOnChar ':' mac).length == 6
    && (splitOnChar ':' mac).all (fun b => b.length == 2)

/-! ## Column-name normalizer (`normalize_col_name`) -/

/-- Modelled from the stdlib: the character decomposition performed by
`unicodedata.normalize('NFKD', ·)`, restricted to the accented characters
this development manipulates; a character with no decomposition maps to
itself. -/
def nfkdChar (c : Char) : List Char :=
  if c = 'Ç' then ['C', Char.ofNat 0x327]
  else if c = 'ç' then ['c', Char.ofNat 0x327]
  else if c = 'Ã' then ['A', Char.ofNat 0x303]
  else if c = 'ã' then ['a', Char.ofNat 0x303]
  else if c = 'É' then ['E', Char.ofNat 0x301]
  else if c = 'é' then ['e', Char.ofNat 0x301]
  else [c]

/-- Modelled from the stdlib: `unicodedata.combining(c) != 0`, which holds of
the Combining Diacritical Marks block produced by the decompositions above. -/
def isCombiningMark (c : Char) : Bool := 0x300 ≤ c.toNat && c.toNat ≤ 0x36F

/-- `normalize_col_name` from `src/app.py`: NFKD-decompose, drop combining
marks, strip surrounding whitespace, lower-case. -/
def normalize_col_name (s : List Char) : List Char :=
  pyLower (pyStrip (((s.map nfkdChar).flatten).filter (fun c => !(isCombiningMark c))))

/-! ## The device store

`src/app.py` keeps the devices in an SQLite relation
`devices(id INTEGER PRIMARY KEY AUTOINCREMENT, ip_address TEXT UNIQUE,
mac_address TEXT, name TEXT)` (its `init_db`).  The store is embedded as the
list of rows in insertion order together with the next surrogate id; an
`INSERT` violates the uniqueness constraint exactly when some stored row
already carries the inserted `ip_address`. -/

/-- One row of the `devices` relation. -/
structure Device where
  devId : Nat
  ip_address : List Char
  mac_address : List Char
  name : List Char
deriving DecidableEq

/-- The `devices` relation plus the autoincrement counter. -/
structure Store where
  nextId : Nat
  rows : List Device
deriving DecidableEq

/-- Whether some stored row already has this `ip_address` (the condition
under which SQLite raises `IntegrityError` on insert). -/
def Store.hasIp (s : Store) (ip : List Char) : Bool :=
  s.rows.any (fun d => d.ip_address == ip)

/-- Number of stored rows carrying a given `ip_address`. -/
def countIp (s : Store) (ip : List Char) : Nat :=
  s.rows.countP (fun d => d.ip_address == ip)

/-- Outcome of `add_device`. -/
inductive AddResult where
  | invalidData
  | duplicate
  | ok
deriving DecidableEq

/-- `add_device` from `src/app.py`: validate, then insert, catching the
uniqueness conflict. -/
def add_device (s : Store) (ip mac nm : List Char) : Store × AddResult :=
  if !(is_valid_ip ip && is_valid_mac mac && !nm.isEmpty) then (s, .invalidData)
  else if s.hasIp ip then (s, .duplicate)
  else (⟨s.nextId + 1, s.rows ++ [⟨s.nextId, ip, mac, nm⟩]⟩, .ok)

/-- `view_devices` from `src/app.py`:
`SELECT name, ip_address, mac_address FROM devices`. -/
def view_devices (s : Store) : List (List Char × List Char × List Char) :=
  s.rows.map (fun d => (d.name, d.ip_address, d.mac_address))

/-- The search filter of the "Dispositivos Cadastrados" view in `src/app.py`:
with a nonempty term, keep the tuples whose lowered name, ip or mac contains
the lowered term. -/
def filter_devices (term : List Char)
    (devs : List (List Char × List Char × List Char)) :
    List (List Char × List Char × List Char) :=
  if term.isEmpty then devs
  else
    devs.filter (fun t =>
      occursIn (pyLower term) (pyLower t.1)
        || occursIn (pyLower term) (pyLower t.2.1)
        || occursIn (pyLower term) (pyLower t.2.2))

/-- The deletion confirmed in the "Dispositivos Cadastrados" view:
`DELETE FROM devices WHERE ip_address = ?`. -/
def delete_by_ip (s : Store) (ip : List Char) : Store :=
  ⟨s.nextId, s.rows.filter (fun d => !(d.ip_address == ip))⟩

/-- Modelled from the spec: `delete_by_id(id) -> Ok`.  The source has no
delete-by-id path (only deletion keyed on `ip_address`); following the
spec's words it removes the rows whose surrogate id equals the key and
always succeeds. -/
def delete_by_id (s : Store) (i : Nat) : Store :=
  ⟨s.nextId, s.rows.filter (fun d => !(d.devId == i))⟩

/-! ## Bulk importer (`importar_dados_df`) -/

/-- One data row of the imported table, already read back as strings
(`str(row[col])`), keyed by the three logical columns the importer uses. -/
structure RawRow where
  ip : List Char
  mac : List Char
  nome : List Char
deriving DecidableEq

/-- The imported table: its header names (as uploaded, before
normalization) and its data rows. -/
structure DataFrame where
  headers : List (List Char)
  rows : List RawRow
deriving DecidableEq

/-- The columns `importar_dados_df` requires: `['ip', 'mac', 'nome']`, also
the fixed list its missing-columns warning prints. -/
def requiredCols : List (List Char) := [("ip").data, ("mac").data, ("nome").data]

/-- Outcome of `importar_dados_df`: the warning naming columns, or the
success message with the inserted count. -/
inductive ImportResult where
  | missingColumns (named : List (List Char))
  | imported (n : Nat)
deriving DecidableEq

/-- The loop body of `importar_dados_df`: trim the three fields, skip the
row unless it validates, insert unless the `ip_address` conflicts, and count
the successful inserts. -/
def importRow (p : Store × Nat) (r : RawRow) : Store × Nat :=
  let ip := pyStrip r.ip
  let mac := pyStrip r.mac
  let nome := pyStrip r.nome
  if is_valid_ip ip && is_valid_mac mac && !nome.isEmpty then
    if p.1.hasIp ip then p
    else (⟨p.1.nextId + 1, p.1.rows ++ [⟨p.1.nextId, ip, mac, nome⟩]⟩, p.2 + 1)
  else p

/-- `importar_dados_df` from `src/app.py`: normalize the headers, require
`ip`, `mac` and `nome`, then run the per-row loop; otherwise warn with the
fixed list of required columns and leave the store untouched. -/
def importar_dados_df (s : Store) (df : DataFrame) : Store × ImportResult :=
  let cols := df.headers.map normalize_col_name
  if requiredCols.all (fun c => cols.contains c) then
    let r := df.rows.foldl importRow (s, 0)
    (r.1, .imported r.2)
  else (s, .missingColumns requiredCols)

/-- The importer's column guard, as a standalone test. -/
def headersOk (df : DataFrame) : Bool :=
  requiredCols.all (fun c => (df.headers.map normalize_col_name).contains c)

/-- Written from the spec's words, for comparison with the code's warning:
the required logical columns that are actually absent after normalizing the
headers. -/
def absentCols (df : DataFrame) : List (List Char) :=
  requiredCols.filter (fun c => !((df.headers.map normalize_col_name).contains c))

/-! ## Reachable store states -/

/-- A stored row that passed validation when inserted: valid ip, valid mac,
nonempty name. -/
def ValidRow (d : Device) : Prop :=
  is_valid_ip d.ip_address = true ∧ is_valid_mac d.mac_address = true
    ∧ d.name.isEmpty = false

/-- Store states reachable from the fresh database through the
application's mutating operations. -/
inductive Reachable : Store → Prop where
  | init : Reachable ⟨1, []⟩
  | add (s : Store) (ip mac nm : List Char) :
      Reachable s → Reachable (add_device s ip mac nm).1
  | importDf (s : Store) (df : DataFrame) :
      Reachable s → Reachable (importar_dados_df s df).1
  | deleteIp (s : Store) (ip : List Char) :
      Reachable s → Reachable (delete_by_ip s ip)

/-! ## The spec-side filter predicate -/

/-- The needle occurs contiguously inside the haystack. -/
def SubstringOf (n h : List Char) : Prop := ∃ l r, h = l ++ n ++ r

/-- Written from the spec's words: the filter term matches a listed tuple
when, case-insensitively, it is a substring of the name, the ip or the mac. -/
def MatchesFilter (term : List Char)
    (t : List Char × List Char × List Char) : Prop :=
  SubstringOf (pyLower term) (pyLower t.1)
    ∨ SubstringOf (pyLower term) (pyLower t.2.1)
    ∨ SubstringOf (pyLower term) (pyLower t.2.2)

/-! ## Concrete fixtures -/

/-- The fresh store created by `init_db`. -/
def store0 : Store := ⟨1, []⟩

/-- The three-row import of the spec's example: row 2 has an invalid MAC,
row 3 duplicates row 1's IP. -/
def df1 : DataFrame :=
  ⟨[("ip").data, ("mac").data, ("nome").data],
   [⟨("10.0.0.1").data, ("AA:BB:CC:DD:EE:01").data, ("Alpha").data⟩,
    ⟨("10.0.0.2").data, ("AA:BB:CC:DD:EE").data, ("Beta").data⟩,
    ⟨("10.0.0.1").data, ("AA:BB:CC:DD:EE:03").data, ("Gamma").data⟩]⟩

/-- A table whose headers miss only the `nome` column. -/
def df2 : DataFrame :=
  ⟨[("ip").data, ("mac").data],
   [⟨("10.0.0.1").data, ("AA:BB:CC:DD:EE:01").data, ("Alpha").data⟩]⟩

/-- A one-device store not matched by the filter term "printer". -/
def routerStore : Store :=
  ⟨2, [⟨1, ("192.168.0.1").data, ("11:22:33:44:55:66").data, ("Router").data⟩]⟩

/-- `routerStore` after registering the printer of the round-trip example. -/
def printerStore : Store :=
  (add_device routerStore ("10.0.0.5").data ("AA:BB:CC:DD:EE:FF").data
    ("Printer").data).1

/-! ## Helper lemmas -/

theorem leadsWith_iff (n : List Char) : ∀ h : List Char,
    leadsWith n h = true ↔ ∃ r, h = n ++ r := by
  induction n with
  | nil =>
    intro h
    simp [leadsWith]
  | cons a as ih =>
    intro h
    cases h with
    | nil =>
      simp [leadsWith]
    | cons b bs =>
      simp only [leadsWith, Bool.and_eq_true, beq_iff_eq, ih, List.cons_append,
        List.cons.injEq]
      constructor
      · rintro ⟨rfl, r, rfl⟩
        exact ⟨r, rfl, rfl⟩
      · rintro ⟨r, rfl, rfl⟩
        exact ⟨rfl, r, rfl⟩

theorem occursIn_iff (n : List Char) : ∀ h : List Char,
    occursIn n h = true ↔ SubstringOf n h := by
  intro h
  induction h with
  | nil =>
    simp only [occursIn, List.isEmpty_iff, SubstringOf]
    constructor
    · rintro rfl
      exact ⟨[], [], rfl⟩
    · rintro ⟨l, r, hl⟩
      rcases List.append_eq_nil.1 hl.symm with ⟨h1, h2⟩
      exact (List.append_eq_nil.1 h1).2
  | cons c t ih =>
    simp only [occursIn, Bool.or_eq_true, leadsWith_iff, ih, SubstringOf]
    constructor
    · rintro (⟨r, hr⟩ | ⟨l, r, rfl⟩)
      · exact ⟨[], r, by simpa using hr⟩
      · exact ⟨c :: l, r, by simp⟩
    · rintro ⟨l, r, hl⟩
      cases l with
      | nil =>
        left
        exact ⟨r, by simpa using hl⟩
      | cons x xs =>
        right
        rw [List.cons_append, List.cons_append, List.cons.injEq] at hl
        obtain ⟨rfl, ht⟩ := hl
        exact ⟨xs, r, by simpa using ht⟩

theorem importRow_step (s : Store) (n : Nat) (r : RawRow) :
    importRow (s, n) r = (s, n)
      ∨ ∃ d : Device, ValidRow d
          ∧ importRow (s, n) r = (⟨s.nextId + 1, s.rows ++ [d]⟩, n + 1) := by
  simp only [importRow]
  split
  next hvalid =>
    split
    · exact Or.inl rfl
    · refine Or.inr ⟨⟨s.nextId, pyStrip r.ip, pyStrip r.mac, pyStrip r.nome⟩,
        ?_, rfl⟩
      simp only [Bool.and_eq_true, Bool.not_eq_true'] at hvalid
      exact ⟨hvalid.1.1, hvalid.1.2, hvalid.2⟩
  next => exact Or.inl rfl

theorem foldImport_spec : ∀ (rows : List RawRow) (s : Store) (n : Nat),
    ∃ newRows : List Device,
      (rows.foldl importRow (s, n)).1.rows = s.rows ++ newRows
        ∧ (rows.foldl importRow (s, n)).2 = n + newRows.length
        ∧ ∀ d ∈ newRows, ValidRow d := by
  intro rows
  induction rows with
  | nil =>
    intro s n
    exact ⟨[], by simp, by simp, by simp⟩
  | cons r rs ih =>
    intro s n
    rw [List.foldl_cons]
    rcases importRow_step s n r with heq | ⟨d, hd, heq⟩
    · rw [heq]
      exact ih s n
    · rw [heq]
      obtain ⟨new, h1, h2, h3⟩ := ih ⟨s.nextId + 1, s.rows ++ [d]⟩ (n + 1)
      refine ⟨d :: new, ?_, ?_, ?_⟩
      · simpa [List.append_assoc] using h1
      · rw [h2]
        simp only [List.length_cons]
        omega
      · intro x hx
        rcases List.mem_cons.1 hx with rfl | hx
        · exact hd
        · exact h3 x hx

/-! ## The claims -/

/-- Claim C3: `is_valid_mac` implements the loose policy — it returns true
exactly when splitting on `:` yields six groups, each exactly two characters
long, with no hexadecimal-digit check; in particular `00:1A:2B:3C:4D:5E` is
accepted, `00:1A:2B:3C:4D` is rejected, and `GG:1A:2B:3C:4D:5E` is accepted. -/
theorem mac_loose_policy :
    (∀ s : List Char, is_valid_mac s = true ↔
      (splitOnChar ':' s).length = 6 ∧ ∀ g ∈ splitOnChar ':' s, g.length = 2)
    ∧ is_valid_mac ("00:1A:2B:3C:4D:5E").data = true
    ∧ is_valid_mac ("00:1A:2B:3C:4D").data = false
    ∧ is_valid_mac ("GG:1A:2B:3C:4D:5E").data = true := by
  refine ⟨?_, by decide, by decide, by decide⟩
  intro s
  simp [is_valid_mac, List.all_eq_true]

/-- Claim C4: `is_valid_ip` accepts a string exactly when it parses as a
syntactically valid IPv4 or IPv6 address literal (the embedded
`ipaddress.ip_address` parser): `192.168.0.1` and `::1` are accepted,
`192.168.0.256` and `00:1A:2B:3C:4D:5E` are rejected; as a pure function it
has no side effects. -/
theorem ip_literal_validation :
    (∀ s : List Char, is_valid_ip s = true ↔
      ((parse_ipv4_address s).isSome = true ∨ (parse_ipv6_address s).isSome = true))
    ∧ is_valid_ip ("192.168.0.1").data = true
    ∧ is_valid_ip ("::1").data = true
    ∧ is_valid_ip ("192.168.0.256").data = false
    ∧ is_valid_ip ("00:1A:2B:3C:4D:5E").data = false := by
  refine ⟨?_, by decide, by decide, by decide, by decide⟩
  intro s
  simp [is_valid_ip]

/-- Claim C8: `normalize_col_name` decomposes accented characters, discards
the combining marks, trims surrounding whitespace and lower-cases; it is a
total function, and on the spec's examples `normalize("Nome") = "nome"`,
`normalize("ENDEREÇO") = "endereco"`, `normalize("  Ip ") = "ip"`. -/
theorem normalize_diacritics_examples :
    normalize_col_name ("Nome").data = ("nome").data
    ∧ normalize_col_name ("ENDEREÇO").data = ("endereco").data
    ∧ normalize_col_name ("  Ip ").data = ("ip").data :=
  ⟨by decide, by decide, by decide⟩

/-- Claim C9: deletion is idempotent — deleting a key (ip, or the
spec-modelled id variant) that is not in the store succeeds and leaves every
row unchanged, and deleting the same key twice equals deleting it once. -/
theorem delete_missing_key_idempotent :
    (∀ (s : Store) (ip : List Char), s.hasIp ip = false → delete_by_ip s ip = s)
    ∧ (∀ (s : Store) (ip : List Char),
        delete_by_ip (delete_by_ip s ip) ip = delete_by_ip s ip)
    ∧ (∀ (s : Store) (i : Nat),
        (s.rows.all (fun d => !(d.devId == i))) = true → delete_by_id s i = s)
    ∧ (∀ (s : Store) (i : Nat),
        delete_by_id (delete_by_id s i) i = delete_by_id s i) := by
  refine ⟨?_, ?_, ?_, ?_⟩
  · intro s ip h
    obtain ⟨nid, rows⟩ := s
    simp only [delete_by_ip, Store.mk.injEq, true_and]
    apply List.filter_eq_self.2
    intro a ha
    rw [Bool.not_eq_true']
    by_contra hc
    rw [Bool.not_eq_false] at hc
    have : Store.hasIp ⟨nid, rows⟩ ip = true := by
      simp only [Store.hasIp, List.any_eq_true]
      exact ⟨a, ha, hc⟩
    rw [h] at this
    cases this
  · intro s ip
    obtain ⟨nid, rows⟩ := s
    simp only [delete_by_ip, Store.mk.injEq, true_and]
    exact List.filter_eq_self.2 (fun a ha => (List.mem_filter.1 ha).2)
  · intro s i h
    obtain ⟨nid, rows⟩ := s
    simp only [delete_by_id, Store.mk.injEq, true_and]
    exact List.filter_eq_self.2 (List.all_eq_true.1 h)
  · intro s i
    obtain ⟨nid, rows⟩ := s
    simp only [delete_by_id, Store.mk.injEq, true_and]
    exact List.filter_eq_self.2 (fun a ha => (List.mem_filter.1 ha).2)

/-- Witness for C9: deleting an absent ip from the concrete one-row store
returns it unchanged. -/
theorem delete_missing_key_idempotent_witness :
    delete_by_ip routerStore ("10.0.0.9").data = routerStore :=
  delete_missing_key_idempotent.1 routerStore (("10.0.0.9").data) (by decide)

/-- Claim C7: the list filter keeps exactly the devices whose name, ip or
mac contains the filter term case-insensitively, and the round-trip example
`create(ip=10.0.0.5, mac=AA:BB:CC:DD:EE:FF, name=Printer)` followed by
`list(filter=printer)` returns exactly that device. -/
theorem filter_case_insensitive_substring :
    (∀ (term : List Char) (devs : List (List Char × List Char × List Char))
        (x : List Char × List Char × List Char),
      x ∈ filter_devices term devs ↔ x ∈ devs ∧ MatchesFilter term x)
    ∧ filter_devices ("printer").data (view_devices printerStore) =
        [(("Printer").data, ("10.0.0.5").data, ("AA:BB:CC:DD:EE:FF").data)] := by
  refine ⟨?_, by decide⟩
  intro term devs x
  by_cases h : term.isEmpty = true
  · have hterm : term = [] := List.isEmpty_iff.1 h
    subst hterm
    rw [filter_devices, if_pos h]
    constructor
    · intro hx
      exact ⟨hx, Or.inl ⟨[], pyLower x.1, by simp [pyLower]⟩⟩
    · exact fun hx => hx.1
  · rw [filter_devices, if_neg h, List.mem_filter]
    simp only [Bool.or_eq_true, occursIn_iff, MatchesFilter, or_assoc]

/-- Claim C2 as stated is refuted by this input: with only the `nome` column
absent, the importer's error names the fixed required list `ip, mac, nome`,
not the columns that are actually absent. -/
theorem missing_columns_fixed_message :
    (importar_dados_df store0 df2).2 = ImportResult.missingColumns requiredCols
    ∧ absentCols df2 = [("nome").data]
    ∧ requiredCols ≠ absentCols df2 :=
  ⟨by decide, by decide, by decide⟩

/-- Claim C2, amended: when any required column is unresolved after
normalizing all headers, the whole import fails with a missing-columns error
naming the fixed required set `ip, mac, nome`, no row is processed, and the
store is left completely unchanged. -/
theorem missing_columns_abort :
    ∀ (s : Store) (df : DataFrame), headersOk df = false →
      importar_dados_df s df = (s, ImportResult.missingColumns requiredCols) := by
  intro s df h
  simp only [headersOk] at h
  simp only [importar_dados_df]
  rw [h]
  simp

/-- Witness for the amended C2: the `Endereco_IP`-style table with no `nome`
column aborts, leaving the fresh store unchanged. -/
theorem missing_columns_abort_witness :
    importar_dados_df store0 df2
      = (store0, ImportResult.missingColumns requiredCols) :=
  missing_columns_abort store0 df2 (by decide)

/-- Claim C1: when the headers resolve, the importer processes rows
independently — trimming fields, skipping invalid rows and uniqueness
conflicts without aborting — and reports exactly the number of rows actually
added to the store; on the spec's three-row example (row 2 invalid MAC,
row 3 duplicate IP) it reports 1 and adds exactly one row. -/
theorem importer_row_policy_count :
    (∀ (s : Store) (df : DataFrame), headersOk df = true →
      (importar_dados_df s df).2 =
        ImportResult.imported ((importar_dados_df s df).1.rows.length - s.rows.length))
    ∧ importar_dados_df store0 df1 =
        (⟨2, [⟨1, ("10.0.0.1").data, ("AA:BB:CC:DD:EE:01").data, ("Alpha").data⟩]⟩,
         ImportResult.imported 1) := by
  refine ⟨?_, by decide⟩
  intro s df h
  simp only [headersOk] at h
  simp only [importar_dados_df, h, if_true]
  obtain ⟨new, h1, h2, _⟩ := foldImport_spec df.rows s 0
  have hlen : (df.rows.foldl importRow (s, 0)).1.rows.length
      = s.rows.length + new.length := by
    rw [h1]
    simp
  rw [h2, hlen]
  congr 1
  omega

/-- Witness for C1: the count reported on the three-row example equals the
growth of the store. -/
theorem importer_row_policy_count_witness :
    (importar_dados_df store0 df1).2 =
      ImportResult.imported
        ((importar_dados_df store0 df1).1.rows.length - store0.rows.length) :=
  importer_row_policy_count.1 store0 df1 (by decide)

/-- Claim C10: the bulk importer only ever inserts — every prior row is
still present, unchanged and in place, afterwards (the new store's rows are
the old ones plus appended rows), and when a count is reported the store
grew by exactly that many rows. -/
theorem importer_only_appends :
    ∀ (s : Store) (df : DataFrame), ∃ newRows : List Device,
      (importar_dados_df s df).1.rows = s.rows ++ newRows
        ∧ ∀ n, (importar_dados_df s df).2 = ImportResult.imported n →
            newRows.length = n := by
  intro s df
  by_cases h : headersOk df = true
  · simp only [headersOk] at h
    simp only [importar_dados_df, h, if_true]
    obtain ⟨new, h1, h2, _⟩ := foldImport_spec df.rows s 0
    refine ⟨new, h1, ?_⟩
    intro n hn
    simp only [ImportResult.imported.injEq] at hn
    omega
  · rw [Bool.not_eq_true] at h
    simp only [headersOk] at h
    have habort : importar_dados_df s df
        = (s, ImportResult.missingColumns requiredCols) := by
      simp only [importar_dados_df]
      rw [h]
      simp
    rw [habort]
    exact ⟨[], by simp, by intro n hn; cases hn⟩

/-- Witness for C10 at the three-row example. -/
theorem importer_only_appends_witness :
    ∃ newRows : List Device,
      (importar_dados_df store0 df1).1.rows = store0.rows ++ newRows
        ∧ ∀ n, (importar_dados_df store0 df1).2 = ImportResult.imported n →
            newRows.length = n :=
  importer_only_appends store0 df1

/-- Claim C5: creating a (validated) device whose `ip_address` is already
stored fails with the duplicate error and changes nothing, and after two
creates with the same IP the store holds exactly one row with that IP. -/
theorem duplicate_ip_create_rejected :
    (∀ (s : Store) (ip mac nm : List Char),
      is_valid_ip ip = true → is_valid_mac mac = true → nm.isEmpty = false →
      s.hasIp ip = true → add_device s ip mac nm = (s, AddResult.duplicate))
    ∧ (∀ (s : Store) (ip mac nm mac2 nm2 : List Char),
      is_valid_ip ip = true → is_valid_mac mac = true → nm.isEmpty = false →
      is_valid_mac mac2 = true → nm2.isEmpty = false → s.hasIp ip = false →
      (add_device (add_device s ip mac nm).1 ip mac2 nm2).1
          = (add_device s ip mac nm).1
        ∧ countIp (add_device (add_device s ip mac nm).1 ip mac2 nm2).1 ip = 1) := by
  have hmain : ∀ (s : Store) (ip mac nm : List Char),
      is_valid_ip ip = true → is_valid_mac mac = true → nm.isEmpty = false →
      s.hasIp ip = true → add_device s ip mac nm = (s, AddResult.duplicate) := by
    intro s ip mac nm h1 h2 h3 hdup
    simp [add_device, h1, h2, h3, hdup]
  refine ⟨hmain, ?_⟩
  intro s ip mac nm mac2 nm2 h1 h2 h3 h4 h5 hfree
  have hins : add_device s ip mac nm
      = (⟨s.nextId + 1, s.rows ++ [⟨s.nextId, ip, mac, nm⟩]⟩, AddResult.ok) := by
    simp [add_device, h1, h2, h3, hfree]
  have hhas : Store.hasIp ⟨s.nextId + 1, s.rows ++ [⟨s.nextId, ip, mac, nm⟩]⟩ ip
      = true := by
    simp [Store.hasIp]
  have hdup2 := hmain ⟨s.nextId + 1, s.rows ++ [⟨s.nextId, ip, mac, nm⟩]⟩ ip mac2
    nm2 h1 h4 h5 hhas
  have hz : s.rows.countP (fun d => d.ip_address == ip) = 0 := by
    apply List.countP_eq_zero.2
    intro d hd hc
    have habs : s.hasIp ip = true := by
      simp only [Store.hasIp, List.any_eq_true]
      exact ⟨d, hd, hc⟩
    rw [hfree] at habs
    cases habs
  rw [hins]
  constructor
  · rw [hdup2]
  · rw [hdup2]
    simp [countIp, List.countP_append, hz, List.countP_cons]

/-- Witness for C5: re-registering the printer's IP on the concrete store is
rejected as a duplicate. -/
theorem duplicate_ip_create_rejected_witness :
    add_device printerStore ("10.0.0.5").data ("11:22:33:44:55:66").data
      ("Extra").data = (printerStore, AddResult.duplicate) :=
  duplicate_ip_create_rejected.1 printerStore (("10.0.0.5").data)
    (("11:22:33:44:55:66").data) (("Extra").data)
    (by decide) (by decide) (by decide) (by decide)

/-- Claim C6: in every reachable store state, every stored row passed IP
validation, MAC validation and the nonempty-name check at the moment it was
inserted, on both insert paths (explicit add and bulk import). -/
theorem stored_rows_validated :
    ∀ s : Store, Reachable s → ∀ d ∈ s.rows, ValidRow d := by
  intro s h
  induction h with
  | init =>
    intro d hd
    cases hd
  | add s ip mac nm _ ih =>
    intro d hd
    by_cases hv : (is_valid_ip ip && is_valid_mac mac && !nm.isEmpty) = true
    · by_cases hdup : s.hasIp ip = true
      · have heq : (add_device s ip mac nm).1 = s := by
          simp [add_device, hv, hdup]
        rw [heq] at hd
        exact ih d hd
      · rw [Bool.not_eq_true] at hdup
        have heq : (add_device s ip mac nm).1
            = ⟨s.nextId + 1, s.rows ++ [⟨s.nextId, ip, mac, nm⟩]⟩ := by
          simp [add_device, hv, hdup]
        rw [heq] at hd
        have hd' : d ∈ s.rows ++ [⟨s.nextId, ip, mac, nm⟩] := hd
        rcases List.mem_append.1 hd' with h1 | h1
        · exact ih d h1
        · rw [List.mem_singleton] at h1
          subst h1
          simp only [Bool.and_eq_true, Bool.not_eq_true'] at hv
          exact ⟨hv.1.1, hv.1.2, hv.2⟩
    · have heq : (add_device s ip mac nm).1 = s := by
        rw [Bool.not_eq_true] at hv
        simp [add_device, hv]
      rw [heq] at hd
      exact ih d hd
  | importDf s df _ ih =>
    intro d hd
    by_cases h : (requiredCols.all
        fun c => (df.headers.map normalize_col_name).contains c) = true
    · have heq : (importar_dados_df s df).1
          = (df.rows.foldl importRow (s, 0)).1 := by
        simp only [importar_dados_df]
        rw [h]
        simp
      rw [heq] at hd
      obtain ⟨new, h1, _, h3⟩ := foldImport_spec df.rows s 0
      rw [h1] at hd
      rcases List.mem_append.1 hd with hh | hh
      · exact ih d hh
      · exact h3 d hh
    · rw [Bool.not_eq_true] at h
      have heq : (importar_dados_df s df).1 = s := by
        simp only [importar_dados_df]
        rw [h]
        simp
      rw [heq] at hd
      exact ih d hd
  | deleteIp s ip _ ih =>
    intro d hd
    have hd' : d ∈ s.rows.filter (fun x => !(x.ip_address == ip)) := hd
    exact ih d (List.mem_filter.1 hd').1

/-- Witness for C6: the row created by registering the printer on the fresh
store is a validated row. -/
theorem stored_rows_validated_witness :
    ValidRow ⟨1, ("10.0.0.5").data, ("AA:BB:CC:DD:EE:FF").data, ("Printer").data⟩ :=
  stored_rows_validated _
    (Reachable.add ⟨1, []⟩ (("10.0.0.5").data) (("AA:BB:CC:DD:EE:FF").data)
      (("Printer").data) Reachable.init)
    _ (by decide)
